import Mathlib

/-!
Verification of the per-target processing engine of paracord (src/paracord.py):
cursor-based pagination, the message filter, the edit/delete action loop with
bounded retries, rate-limit backoff, and the checkpoint/resume mechanism.
Every definition below is a shallow embedding of the corresponding Python code,
with the source line numbers cited in its doc comment.
-/

namespace Paracord

/-- The marker text written by "meow mode" (src line 57, `MEOW_TEXT`). -/
def MEOW_TEXT : String := "Meow Meow Meow Meow"

/-- Result codes returned by `delete_message` / `edit_message`
(src lines 437-443 and 498-504): the strings 'OK', 'GHOST', 'SKIP', 'RETRY',
'FAILED'. -/
inductive ApiResult
  | ok
  | ghost
  | skip
  | retry
  | failed
deriving DecidableEq, Repr

/-- The three meow modes (src line 58, `MEOW_MODES`). -/
inductive MeowMode
  | off
  | editAndDelete
  | editOnly
deriving DecidableEq, Repr

/-- The settings consumed by the engine (config `settings` object,
src lines 1001-1009 defaults, read throughout `process_target`). -/
structure Settings where
  searchDelay : Nat
  deleteDelay : Nat
  skipPinned : Bool
  skipMeowed : Bool
  maxRetries : Nat
  meowMode : MeowMode
deriving DecidableEq, Repr

/-- A search-hit message as the engine reads it: `id` (snowflake, a Python
int, embedded as `Int`), `author.id`, `content`, `pinned`, `hit`
(src lines 622-631). -/
structure Msg where
  id : Int
  authorId : String
  content : String
  pinned : Bool
  hit : Bool
deriving DecidableEq, Repr

/-- The `self.stats` counters (src lines 94-103); the two timestamps are
omitted, only the six monotone counters are modelled. -/
structure Stats where
  deleted : Nat
  edited : Nat
  failed : Nat
  skipped : Nat
  rate_limited : Nat
  ghosts : Nat
deriving DecidableEq, Repr

/-- All counters zero, the state set by `__init__` (src lines 94-103). -/
def Stats.zero : Stats := ⟨0, 0, 0, 0, 0, 0⟩

/-- Pointwise sum of counter increments. -/
def Stats.add (a b : Stats) : Stats :=
  ⟨a.deleted + b.deleted, a.edited + b.edited, a.failed + b.failed,
   a.skipped + b.skipped, a.rate_limited + b.rate_limited, a.ghosts + b.ghosts⟩

/-! ### Backoff controller: the HTTP-status dispatch of the three API wrappers -/

/-- HTTP statuses consumed by `search_messages` (src lines 411-432).
`retryAfter` is the response body's `retry_after` field, absent when the
body lacks it (the code then uses `.get`'s default). -/
inductive SearchStatus
  | okPage (totalResults : Nat) (groups : List (List Msg))
  | rateLimited429 (retryAfter : Option Nat)
  | notIndexed202 (retryAfter : Option Nat)
  | httpError (code : Nat)
deriving Repr

/-- What one `search_messages` attempt does with a response:
sleep `sleep` seconds, add `rlInc` to `stats['rate_limited']`, and either
recurse with identical arguments, return the page, or raise. -/
inductive SearchAction
  | retrySameArgs (sleep : Nat) (rlInc : Nat)
  | returnPage (totalResults : Nat) (groups : List (List Msg))
  | raiseError (code : Nat)
deriving Repr

/-- Embedding of the response dispatch of `search_messages`
(src lines 411-432): 429 sleeps `retry_after * 2` (default 40) and counts a
rate-limit event, 202 sleeps `retry_after` (default 5) with no count; both
retry the identical request (src lines 421, 429). -/
def search_messages (s : SearchStatus) : SearchAction :=
  match s with
  | .rateLimited429 ra => .retrySameArgs ((ra.getD 40) * 2) 1
  | .notIndexed202 ra => .retrySameArgs (ra.getD 5) 0
  | .okPage t g => .returnPage t g
  | .httpError c => .raiseError c

/-- HTTP responses consumed by `delete_message` / `edit_message`
(src lines 447-492 and 509-550). `status400` carries the JSON error `code`
when the body parses. -/
inductive HttpResp
  | status204
  | status200
  | status429 (retryAfter : Option Nat)
  | status404
  | status400 (code : Option Nat)
  | status403
  | statusOther
  | requestException
deriving DecidableEq, Repr

/-- The effect of one `delete_message` / `edit_message` call: the returned
result string, the seconds slept inside the call, and the increment applied
to `stats['rate_limited']`. -/
structure CallStep where
  result : ApiResult
  sleep : Nat
  rlInc : Nat
deriving DecidableEq, Repr

/-- Embedding of `delete_message` (src lines 434-492): 204 → OK;
429 → sleep `retry_after * 2` (default 3), count a rate-limit event, RETRY;
404 → GHOST; 400 with code 50083 → SKIP, other 400 → FAILED; 403 → SKIP;
anything else → FAILED; a request exception → RETRY while `attempt < 3`
else FAILED (src line 492, hardcoded 3). -/
def delete_message (resp : HttpResp) (attempt : Nat) : CallStep :=
  match resp with
  | .status204 => ⟨.ok, 0, 0⟩
  | .status429 ra => ⟨.retry, (ra.getD 3) * 2, 1⟩
  | .status404 => ⟨.ghost, 0, 0⟩
  | .status400 c => if c = some 50083 then ⟨.skip, 0, 0⟩ else ⟨.failed, 0, 0⟩
  | .status403 => ⟨.skip, 0, 0⟩
  | .requestException => if attempt < 3 then ⟨.retry, 0, 0⟩ else ⟨.failed, 0, 0⟩
  | _ => ⟨.failed, 0, 0⟩

/-- Embedding of `edit_message` (src lines 494-550): identical dispatch
except that success is status 200. -/
def edit_message (resp : HttpResp) (attempt : Nat) : CallStep :=
  match resp with
  | .status200 => ⟨.ok, 0, 0⟩
  | .status429 ra => ⟨.retry, (ra.getD 3) * 2, 1⟩
  | .status404 => ⟨.ghost, 0, 0⟩
  | .status400 c => if c = some 50083 then ⟨.skip, 0, 0⟩ else ⟨.failed, 0, 0⟩
  | .status403 => ⟨.skip, 0, 0⟩
  | .requestException => if attempt < 3 then ⟨.retry, 0, 0⟩ else ⟨.failed, 0, 0⟩
  | _ => ⟨.failed, 0, 0⟩

/-! ### Action executor: the bounded retry loops of process_target -/

/-- How one of the two `for attempt in range(1, max_retries + 1)` loops of
`process_target` ends (src lines 710-729 for edit, 749-776 for delete):
a break on OK / GHOST / SKIP / FAILED, the cap reached on RETRY
(`retryExhausted`), or the loop body never entered (`noAttempt`, only when
`max_retries = 0`). -/
inductive LoopOutcome
  | ok
  | ghost
  | skipTerminal
  | failedTerminal
  | retryExhausted
  | noAttempt
deriving DecidableEq, Repr

/-- The shared retry-loop shape of the edit loop (src lines 710-729) and the
delete loop (src lines 749-776): `res` gives the API result of each attempt
number, `attempt` is the current attempt, `fuel` the remaining iterations
(initially `max_retries`).  Returns the loop outcome and the number of API
calls issued.  On RETRY with `attempt < max_retries` the code sleeps 1s and
continues; on the last attempt it breaks. -/
def retryLoop (res : Nat → ApiResult) : Nat → Nat → LoopOutcome × Nat
  | _, 0 => (.noAttempt, 0)
  | attempt, fuel + 1 =>
    match res attempt with
    | .ok => (.ok, 1)
    | .ghost => (.ghost, 1)
    | .skip => (.skipTerminal, 1)
    | .failed => (.failedTerminal, 1)
    | .retry =>
      if fuel = 0 then (.retryExhausted, 1)
      else
        let r := retryLoop res (attempt + 1) fuel
        (r.1, r.2 + 1)

/-- Statistics increments applied by the delete-result dispatch
(src lines 752-776): OK → deleted, GHOST → ghosts, SKIP → skipped,
FAILED → failed, RETRY exhausted → failed. -/
def deleteDispatch : LoopOutcome → Stats
  | .ok => { Stats.zero with deleted := 1 }
  | .ghost => { Stats.zero with ghosts := 1 }
  | .skipTerminal => { Stats.zero with skipped := 1 }
  | .failedTerminal => { Stats.zero with failed := 1 }
  | .retryExhausted => { Stats.zero with failed := 1 }
  | .noAttempt => Stats.zero

/-- The effect of processing one message of a batch: the statistics
increments and the number of edit / delete API calls issued. -/
structure MsgEffect where
  delta : Stats
  editCalls : Nat
  deleteCalls : Nat
deriving DecidableEq, Repr

/-- Embedding of the per-message body of the batch loop in `process_target`
(src lines 696-776), without the inter-call sleeps: when meow mode is on and
the content is not already the marker, run the edit retry loop
(OK → edited, GHOST → ghosts and skip deletion, src lines 713-734); in
`edit_only` mode stop there (src lines 741-746); otherwise run the delete
retry loop and apply its dispatch (src lines 749-776). -/
def processMessage (st : Settings) (m : Msg)
    (editRes deleteRes : Nat → ApiResult) : MsgEffect :=
  if st.meowMode ≠ .off ∧ m.content ≠ MEOW_TEXT then
    let e := retryLoop editRes 1 st.maxRetries
    if e.1 = .ghost then
      ⟨{ Stats.zero with ghosts := 1 }, e.2, 0⟩
    else
      let editDelta : Stats := if e.1 = .ok then { Stats.zero with edited := 1 } else Stats.zero
      if st.meowMode = .editOnly then
        ⟨editDelta, e.2, 0⟩
      else
        let d := retryLoop deleteRes 1 st.maxRetries
        ⟨editDelta.add (deleteDispatch d.1), e.2, d.2⟩
  else
    if st.meowMode = .editOnly then
      ⟨Stats.zero, 0, 0⟩
    else
      let d := retryLoop deleteRes 1 st.maxRetries
      ⟨deleteDispatch d.1, 0, d.2⟩

/-- The running-minimum update of `oldest_processed_id` (src lines 700-702):
`if oldest_processed_id is None or msg_id < oldest_processed_id`. -/
def trackOldest (acc : Option Int) (i : Int) : Option Int :=
  match acc with
  | none => some i
  | some v => if i < v then some i else some v

/-- The minimum id of a message list, as the code computes running minima
(`None` for the empty list). -/
def oldestIdOf (msgs : List Msg) : Option Int :=
  msgs.foldl (fun acc m => trackOldest acc m.id) none

/-- Result of executing one eligible batch (src lines 687-784):
total statistics increments, API call counts, and the final
`oldest_processed_id`. -/
structure BatchResult where
  delta : Stats
  editCalls : Nat
  deleteCalls : Nat
  oldestProcessed : Option Int
deriving DecidableEq, Repr

/-- Embedding of the batch loop `for i, msg in enumerate(messages)`
(src lines 692-782) with the stop flag never set: `editRes i` / `deleteRes i`
give the API results for the message at position `i`. -/
def processBatch (st : Settings) (editRes deleteRes : Nat → Nat → ApiResult) :
    Nat → Option Int → List Msg → BatchResult
  | _, oldest, [] => ⟨Stats.zero, 0, 0, oldest⟩
  | i, oldest, m :: rest =>
    let e := processMessage st m (editRes i) (deleteRes i)
    let r := processBatch st editRes deleteRes (i + 1) (trackOldest oldest m.id) rest
    ⟨e.delta.add r.delta, e.editCalls + r.editCalls, e.deleteCalls + r.deleteCalls,
      r.oldestProcessed⟩

/-! ### Message filter and the pagination loop -/

/-- `all_hit_messages`: the page's hits authored by the current user
(src lines 619-624). -/
def pageHits (authorId : String) (groups : List (List Msg)) : List Msg :=
  groups.flatten.filter (fun m => m.hit && m.authorId == authorId)

/-- `messages`: the hits that additionally pass the pinned / meowed filters
(src lines 625-631). -/
def pageEligible (st : Settings) (authorId : String) (groups : List (List Msg)) : List Msg :=
  (pageHits authorId groups).filter
    (fun m => !(st.skipPinned && m.pinned) && !(st.skipMeowed && m.content == MEOW_TEXT))

/-- Cursor state of the pagination loop (src lines 582-587):
`max_id_cursor` (None = start from newest), `offset`, `empty_pages`. -/
structure PageState where
  maxId : Option Int
  offset : Nat
  emptyPages : Nat
deriving DecidableEq, Repr

/-- `MAX_EMPTY_PAGES` (src line 587). -/
def MAX_EMPTY_PAGES : Nat := 3

/-- Result of one iteration of the pagination loop: the target is exhausted
(the `break` at src line 609), or the loop continues with a new cursor state,
having slept `sleep` seconds at the bottom, applied `delta` to the
statistics, and issued `editCalls` / `deleteCalls` action calls. -/
inductive PageOutcome
  | exhausted (emptyPages : Nat)
  | continued (s : PageState) (sleep : Nat) (delta : Stats) (editCalls deleteCalls : Nat)
deriving DecidableEq, Repr

/-- The resulting cursor state, when the loop continues. -/
def PageOutcome.stateOf : PageOutcome → Option PageState
  | .exhausted _ => none
  | .continued s _ _ _ _ => some s

/-- Total edit calls issued during this iteration. -/
def PageOutcome.editCallsOf : PageOutcome → Nat
  | .exhausted _ => 0
  | .continued _ _ _ ec _ => ec

/-- Total delete calls issued during this iteration. -/
def PageOutcome.deleteCallsOf : PageOutcome → Nat
  | .exhausted _ => 0
  | .continued _ _ _ _ dc => dc

/-- Statistics increments applied during this iteration. -/
def PageOutcome.deltaOf : PageOutcome → Stats
  | .exhausted _ => Stats.zero
  | .continued _ _ d _ _ => d

/-- Embedding of one iteration of the pagination loop of `process_target`
(src lines 589-809), given the page the search call returned, with the
stop flag never set.  Branches in source order: empty page
(src lines 605-613), counter reset (line 616), filter (619-631), no hits by
us (633-650, with Python's truthiness test `if oldest_id:` on line 642),
all filtered (652-659), dry run (665-677), execute batch and advance the
cursor to `oldest_processed_id - 1` (679-795), sleep `search_delay`
(line 809). -/
def processPage (st : Settings) (authorId : String) (dryRun : Bool)
    (ps : PageState) (groups : List (List Msg))
    (editRes deleteRes : Nat → Nat → ApiResult) : PageOutcome :=
  if groups = [] then
    let ep := ps.emptyPages + 1
    if MAX_EMPTY_PAGES ≤ ep then .exhausted ep
    else .continued { ps with emptyPages := ep } st.searchDelay Stats.zero 0 0
  else
    let ps0 : PageState := { ps with emptyPages := 0 }
    let hits := pageHits authorId groups
    let msgs := pageEligible st authorId groups
    if msgs = [] ∧ hits = [] then
      match oldestIdOf (groups.flatten.filter (fun m => m.hit)) with
      | some oid =>
        if oid ≠ 0 then
          .continued { ps0 with maxId := some (oid - 1), offset := 0 }
            st.searchDelay Stats.zero 0 0
        else
          .continued { ps0 with offset := ps0.offset + groups.length }
            st.searchDelay Stats.zero 0 0
      | none =>
        .continued { ps0 with offset := ps0.offset + groups.length }
          st.searchDelay Stats.zero 0 0
    else if msgs = [] then
      match oldestIdOf hits with
      | some oid =>
        .continued { ps0 with maxId := some (oid - 1), offset := 0 }
          st.searchDelay Stats.zero 0 0
      | none => .continued ps0 st.searchDelay Stats.zero 0 0
    else if dryRun then
      match oldestIdOf msgs with
      | some oid =>
        .continued { ps0 with maxId := some (oid - 1), offset := 0 }
          st.searchDelay Stats.zero 0 0
      | none => .continued ps0 st.searchDelay Stats.zero 0 0
    else
      let b := processBatch st editRes deleteRes 0 none msgs
      match b.oldestProcessed with
      | some oid =>
        .continued { ps0 with maxId := some (oid - 1), offset := 0 }
          st.searchDelay b.delta b.editCalls b.deleteCalls
      | none => .continued ps0 st.searchDelay b.delta b.editCalls b.deleteCalls

/-! ### Progress store, batch runner state, and the signal handler -/

/-- A checkpoint as written by `save_progress` (src lines 913-924):
`current_target_index` and the statistics snapshot (the timestamp is
omitted). -/
structure Checkpoint where
  current_target_index : Nat
  stats : Stats
deriving DecidableEq, Repr

/-- The run-level mutable state set up by `__init__`
(src lines 94-108): statistics, current target index, stop flag. -/
structure RunState where
  stats : Stats
  current_target_index : Nat
  should_stop : Bool
deriving DecidableEq, Repr

/-- The state `__init__` establishes at process start (src lines 94-108):
zero counters, index 0, stop flag clear. -/
def initState : RunState := ⟨Stats.zero, 0, false⟩

/-- Embedding of `save_progress` (src lines 913-924): the checkpoint records
the current target index and the current statistics. -/
def save_progress (rs : RunState) : Checkpoint :=
  ⟨rs.current_target_index, rs.stats⟩

/-- Embedding of the resume block of `run_batch` (src lines 849-853): when
`resume` is passed and a progress file exists, only
`current_target_index` is taken from it; nothing else of the state is
touched. -/
def loadProgress (rs : RunState) (cp : Option Checkpoint) (resume : Bool) : RunState :=
  match resume, cp with
  | true, some c => { rs with current_target_index := c.current_target_index }
  | _, _ => rs

/-- Statistics at the end of a run: the per-target increments `deltas`
accumulated onto the state's counters (src: `self.stats` is mutated in
place throughout `process_target`). -/
def finalStats (rs : RunState) (deltas : List Stats) : Stats :=
  deltas.foldl Stats.add rs.stats

/-- What `signal_handler` does besides mutating the state: whether it wrote
a checkpoint and whether it terminated the process from inside the
handler. -/
structure HandlerEffect where
  saved : Option Checkpoint
  exitsProcess : Bool
deriving DecidableEq, Repr

/-- Embedding of `signal_handler` (src lines 140-146): set `should_stop`,
call `save_progress`, then `sys.exit(0)` — the process terminates inside
the handler, control never returns to the interrupted engine code. -/
def signal_handler (rs : RunState) : RunState × HandlerEffect :=
  let rs2 := { rs with should_stop := true }
  (rs2, ⟨some (save_progress rs2), true⟩)

/-- The successive `max_id_cursor` values produced by the batch-advance step
(src lines 789-791, `max_id_cursor = str(oldest_processed_id - 1)`), one per
delivered batch; a batch with no processed message (`oldest_processed_id is
None`) leaves the cursor unchanged, as the code's guard does. -/
def cursorRun (c : Int) : List (List Msg) → List Int
  | [] => []
  | b :: bs =>
    match oldestIdOf b with
    | some o => (o - 1) :: cursorRun (o - 1) bs
    | none => cursorRun c bs

/-- A well-formed sequence of delivered batches for one target: each batch
is nonempty, every message id in it is a nonnegative snowflake strictly
below the cursor in force when it was fetched (the search's `max_id`
exclusive upper bound, src lines 386, 405-407), and the remaining batches
are well-formed for the advanced cursor. -/
inductive ValidRun : Int → List (List Msg) → Prop
  | nil (c : Int) : ValidRun c []
  | cons (c : Int) (b : List Msg) (bs : List (List Msg)) (hne : b ≠ [])
      (hb : ∀ m ∈ b, 0 ≤ m.id ∧ m.id < c)
      (hrest : ∀ o, oldestIdOf b = some o → ValidRun (o - 1) bs) :
      ValidRun c (b :: bs)

/-! ### Helper lemmas -/

/-- Folding the running-minimum update from a `some` accumulator always
yields a `some`. -/
theorem foldl_trackOldest_some (l : List Msg) :
    ∀ (v : Int), ∃ o, l.foldl (fun acc m => trackOldest acc m.id) (some v) = some o := by
  induction l with
  | nil => intro v; exact ⟨v, rfl⟩
  | cons m rest ih =>
    intro v
    simp only [List.foldl_cons, trackOldest]
    by_cases hlt : m.id < v
    · rw [if_pos hlt]; exact ih m.id
    · rw [if_neg hlt]; exact ih v

/-- A nonempty batch has a well-defined `oldest_processed_id`. -/
theorem oldestIdOf_isSome (msgs : List Msg) (h : msgs ≠ []) :
    ∃ o, oldestIdOf msgs = some o := by
  match msgs with
  | [] => exact absurd rfl h
  | m :: rest =>
    show ∃ o, rest.foldl (fun acc x => trackOldest acc x.id) (trackOldest none m.id) = some o
    exact foldl_trackOldest_some rest m.id

/-- The running minimum computes the least id: when the fold yields `some o`,
`o` is the accumulator's value or the id of one of the messages, is at most
the accumulator's value, and is a lower bound of all the ids. -/
theorem foldl_trackOldest_spec (l : List Msg) :
    ∀ (acc : Option Int) (o : Int),
      l.foldl (fun a m => trackOldest a m.id) acc = some o →
      ((acc = some o ∨ ∃ m ∈ l, m.id = o) ∧
        (∀ v, acc = some v → o ≤ v) ∧ (∀ m ∈ l, o ≤ m.id)) := by
  induction l with
  | nil =>
    intro acc o h
    simp only [List.foldl_nil] at h
    refine ⟨Or.inl h, ?_, by simp⟩
    intro v hv
    rw [hv] at h
    exact le_of_eq (Option.some_inj.mp h).symm
  | cons m rest ih =>
    intro acc o h
    simp only [List.foldl_cons] at h
    rcases acc with _ | v
    · simp only [trackOldest] at h
      obtain ⟨h1, h2, h3⟩ := ih (some m.id) o h
      refine ⟨?_, ?_, ?_⟩
      · rcases h1 with h1 | ⟨x, hx, hxo⟩
        · exact Or.inr ⟨m, List.mem_cons_self m rest, (Option.some_inj.mp h1)⟩
        · exact Or.inr ⟨x, List.mem_cons_of_mem m hx, hxo⟩
      · intro v hv; exact absurd hv (by simp)
      · intro x hx
        rcases List.mem_cons.mp hx with rfl | hx'
        · exact h2 _ rfl
        · exact h3 x hx'
    · simp only [trackOldest] at h
      by_cases hlt : m.id < v
      · rw [if_pos hlt] at h
        obtain ⟨h1, h2, h3⟩ := ih (some m.id) o h
        refine ⟨?_, ?_, ?_⟩
        · rcases h1 with h1 | ⟨x, hx, hxo⟩
          · exact Or.inr ⟨m, List.mem_cons_self m rest, (Option.some_inj.mp h1)⟩
          · exact Or.inr ⟨x, List.mem_cons_of_mem m hx, hxo⟩
        · intro w hw
          have hwv : w = v := Option.some_inj.mp hw.symm
          subst hwv
          exact le_trans (h2 _ rfl) (le_of_lt hlt)
        · intro x hx
          rcases List.mem_cons.mp hx with rfl | hx'
          · exact h2 _ rfl
          · exact h3 x hx'
      · rw [if_neg hlt] at h
        obtain ⟨h1, h2, h3⟩ := ih (some v) o h
        refine ⟨?_, ?_, ?_⟩
        · rcases h1 with h1 | ⟨x, hx, hxo⟩
          · exact Or.inl h1
          · exact Or.inr ⟨x, List.mem_cons_of_mem m hx, hxo⟩
        · intro w hw
          have hwv : w = v := Option.some_inj.mp hw.symm
          subst hwv
          exact h2 _ rfl
        · intro x hx
          rcases List.mem_cons.mp hx with rfl | hx'
          · exact le_trans (h2 _ rfl) (not_lt.mp hlt)
          · exact h3 x hx'

/-- Along any well-formed run, the cursor values form a strictly decreasing
chain. -/
theorem validRun_chain : ∀ (c : Int) (bs : List (List Msg)), ValidRun c bs →
    List.Chain (fun x y => y < x) c (cursorRun c bs) := by
  intro c bs h
  induction h with
  | nil c => exact List.Chain.nil
  | cons c b bs hne hb hrest ih =>
    obtain ⟨o, ho⟩ := oldestIdOf_isSome b hne
    obtain ⟨h1, -, -⟩ := foldl_trackOldest_spec b none o ho
    rcases h1 with h1 | ⟨m, hm, hmo⟩
    · exact absurd h1 (by simp)
    · have hoc : o < c := hmo ▸ (hb m hm).2
      simp only [cursorRun, ho]
      exact List.Chain.cons (by omega) (ih o ho)

/-- Along any well-formed run the cursor strictly decreases through
nonnegative ids, so the number of cursor advances is bounded by the starting
cursor: the walk terminates. -/
theorem validRun_length : ∀ (c : Int) (bs : List (List Msg)), ValidRun c bs →
    bs.length ≤ (c + 1).toNat := by
  intro c bs h
  induction h with
  | nil c => simp
  | cons c b bs hne hb hrest ih =>
    obtain ⟨o, ho⟩ := oldestIdOf_isSome b hne
    obtain ⟨h1, -, -⟩ := foldl_trackOldest_spec b none o ho
    rcases h1 with h1 | ⟨m, hm, hmo⟩
    · exact absurd h1 (by simp)
    · have h0 : 0 ≤ o := hmo ▸ (hb m hm).1
      have hoc : o < c := hmo ▸ (hb m hm).2
      have hlen := ih o ho
      simp only [List.length_cons]
      omega

/-- When `max_retries ≥ 1` the retry loop issues at least one API call. -/
theorem retryLoop_calls_pos (res : Nat → ApiResult) :
    ∀ (f a : Nat), f ≠ 0 → 1 ≤ (retryLoop res a f).2 := by
  intro f
  induction f with
  | zero => intro a h; exact absurd rfl h
  | succ f ih =>
    intro a _
    cases hres : res a <;> simp [retryLoop, hres]
    split <;> simp

/-- When `max_retries ≥ 1` the retry loop's body runs, so its outcome is
never `noAttempt`. -/
theorem retryLoop_ne_noAttempt (res : Nat → ApiResult) :
    ∀ (f a : Nat), f ≠ 0 → (retryLoop res a f).1 ≠ LoopOutcome.noAttempt := by
  intro f
  induction f with
  | zero => intro a h; exact absurd rfl h
  | succ f ih =>
    intro a _
    cases hres : res a <;> simp [retryLoop, hres]
    split
    · simp
    · exact ih (a + 1) (by omega)

/-- Every delete-loop outcome other than `noAttempt` increments exactly one
of the four terminal counters and never the edited counter. -/
theorem deleteDispatch_sum (o : LoopOutcome) (h : o ≠ LoopOutcome.noAttempt) :
    (deleteDispatch o).deleted + (deleteDispatch o).ghosts +
      (deleteDispatch o).skipped + (deleteDispatch o).failed = 1 ∧
    (deleteDispatch o).edited = 0 := by
  cases o <;> first
    | exact absurd rfl h
    | exact ⟨rfl, rfl⟩

/-- In `edit_only` mode a message never triggers a delete call. -/
theorem processMessage_editOnly_deleteCalls (st : Settings) (m : Msg)
    (editRes deleteRes : Nat → ApiResult) (h : st.meowMode = MeowMode.editOnly) :
    (processMessage st m editRes deleteRes).deleteCalls = 0 := by
  simp only [processMessage, h]
  split
  · split
    · rfl
    · simp
  · simp

/-- In `edit_only` mode a whole batch issues zero delete calls. -/
theorem processBatch_editOnly_deleteCalls (st : Settings)
    (editRes deleteRes : Nat → Nat → ApiResult) (h : st.meowMode = MeowMode.editOnly) :
    ∀ (msgs : List Msg) (i : Nat) (acc : Option Int),
      (processBatch st editRes deleteRes i acc msgs).deleteCalls = 0 := by
  intro msgs
  induction msgs with
  | nil => intro i acc; rfl
  | cons m rest ih =>
    intro i acc
    simp [processBatch, processMessage_editOnly_deleteCalls st m _ _ h, ih]

/-! ### Claims -/

/-- C1 counterexample: resuming from a checkpoint whose statistics snapshot
records 10 deletions leaves the run's deleted counter at 0, not 10, even
though the target index is restored to the checkpoint's value — so with zero
newly accumulated counts the final counter is 0, not the claimed
checkpointed 10 + 0. -/
theorem c1_counterexample :
    (loadProgress initState (some ⟨2, { Stats.zero with deleted := 10 }⟩) true).stats.deleted
        = 0 ∧
    ¬ ((loadProgress initState (some ⟨2, { Stats.zero with deleted := 10 }⟩)
          true).stats.deleted = 10) ∧
    (loadProgress initState (some ⟨2, { Stats.zero with deleted := 10 }⟩)
        true).current_target_index = 2 := by
  decide

/-- C1 amended: on resume only the target index is taken from the
checkpoint; the statistics stay at the zeros set at process start, so the
final counters of a resumed run equal exactly the counts newly accumulated
after resume (the same as a fresh run over the remaining targets), not the
checkpointed counts plus the new ones. -/
theorem c1_resume_restores_index_not_stats (cp : Checkpoint) (deltas : List Stats) :
    (loadProgress initState (some cp) true).current_target_index
        = cp.current_target_index ∧
    (loadProgress initState (some cp) true).stats = Stats.zero ∧
    finalStats (loadProgress initState (some cp) true) deltas = finalStats initState deltas :=
  ⟨rfl, rfl, rfl⟩

/-- C3 counterexample: the claim requires cancellation to be cooperative —
the handler only sets the stop flag and the engine itself terminates later,
after its current blocking call resolves and the flag is observed at a
suspension boundary; that would mean the handler does not exit the process
(`exitsProcess = false`).  The embedded `signal_handler` exits the process
itself (`sys.exit(0)`, src line 146). -/
theorem c3_counterexample :
    ¬ ((signal_handler initState).2.exitsProcess = false) := by
  decide

/-- C3 amended: on an interrupt signal the handler sets the stop flag,
writes a checkpoint of the current index and statistics, and terminates the
process immediately from inside the handler via `sys.exit(0)`; it does not
return control to the engine, so the stop-flag checks at the message, page
and target boundaries are never the ones that end a signalled run. -/
theorem c3_handler_saves_and_exits (rs : RunState) :
    (signal_handler rs).1.should_stop = true ∧
    (signal_handler rs).2.saved = some ⟨rs.current_target_index, rs.stats⟩ ∧
    (signal_handler rs).2.exitsProcess = true :=
  ⟨rfl, rfl, rfl⟩

/-- C5: a rate-limited (429) response with server-suggested wait `w` makes
each of the three API wrappers sleep `w * 2` and count exactly one
rate-limited event before retrying the same logical operation
(`search_messages` recurses with identical arguments, `delete_message` and
`edit_message` return RETRY to their retry loops); an index-not-ready (202)
response with wait `w` makes `search_messages` sleep exactly `w`, count
nothing, and retry the identical request. -/
theorem c5_backoff_policy (w a : Nat) :
    search_messages (SearchStatus.rateLimited429 (some w))
        = SearchAction.retrySameArgs (w * 2) 1 ∧
    search_messages (SearchStatus.notIndexed202 (some w))
        = SearchAction.retrySameArgs w 0 ∧
    delete_message (HttpResp.status429 (some w)) a = ⟨ApiResult.retry, w * 2, 1⟩ ∧
    edit_message (HttpResp.status429 (some w)) a = ⟨ApiResult.retry, w * 2, 1⟩ :=
  ⟨rfl, rfl, rfl, rfl⟩

/-- C2 counterexample: in `edit_and_delete` mode with `max_retries = 3`, a
message whose edit attempt yields SKIP still has the deletion step attempted
(one delete call is issued), contradicting the claim that Skipped ends
processing of the message with no deletion attempt. -/
theorem c2_counterexample :
    (processMessage ⟨10, 1, true, false, 3, MeowMode.editAndDelete⟩
        ⟨300, "u1", "hello there", false, true⟩
        (fun _ => ApiResult.skip) (fun _ => ApiResult.ok)).deleteCalls = 1 ∧
    ¬ ((processMessage ⟨10, 1, true, false, 3, MeowMode.editAndDelete⟩
        ⟨300, "u1", "hello there", false, true⟩
        (fun _ => ApiResult.skip) (fun _ => ApiResult.ok)).deleteCalls = 0) := by
  decide

/-- C2 amended: an edit attempt yielding Skipped ends the edit retry loop at
once (exactly one edit call, no further edit retries), but in
`edit_and_delete` mode the deletion step is still attempted for that
message (at least one delete call is issued). -/
theorem c2_skip_ends_edit_but_delete_still_attempted (st : Settings) (m : Msg)
    (editRes deleteRes : Nat → ApiResult)
    (hmode : st.meowMode = MeowMode.editAndDelete) (hc : m.content ≠ MEOW_TEXT)
    (hres : editRes 1 = ApiResult.skip) (hr : st.maxRetries ≠ 0) :
    (processMessage st m editRes deleteRes).editCalls = 1 ∧
    1 ≤ (processMessage st m editRes deleteRes).deleteCalls := by
  obtain ⟨f, hf⟩ : ∃ f, st.maxRetries = f + 1 := ⟨st.maxRetries - 1, by omega⟩
  have hloop : retryLoop editRes 1 st.maxRetries = (LoopOutcome.skipTerminal, 1) := by
    rw [hf]; simp [retryLoop, hres]
  simp only [processMessage, hmode, hloop]
  simp only [ne_eq, hc, not_false_iff, and_true]
  simp only [reduceCtorEq, if_false, if_true, reduceIte]
  exact ⟨rfl, retryLoop_calls_pos deleteRes st.maxRetries 1 (by omega)⟩

/-- C2 amended witness: the amended statement at a concrete message whose
first edit attempt is SKIP. -/
theorem c2_amended_witness :
    (processMessage ⟨10, 1, true, false, 3, MeowMode.editAndDelete⟩
        ⟨301, "u1", "hi friend", false, true⟩
        (fun _ => ApiResult.skip) (fun _ => ApiResult.ok)).editCalls = 1 ∧
    1 ≤ (processMessage ⟨10, 1, true, false, 3, MeowMode.editAndDelete⟩
        ⟨301, "u1", "hi friend", false, true⟩
        (fun _ => ApiResult.skip) (fun _ => ApiResult.ok)).deleteCalls :=
  c2_skip_ends_edit_but_delete_still_attempted _ _ _ _ rfl (by decide) rfl (by decide)

/-- C6 counterexample: in `edit_only` mode a message whose single edit
attempt terminates as Skipped (one edit call issued, SKIP returned)
increments no statistics counter at all, contradicting the claim that no
terminal outcome leaves every counter unchanged. -/
theorem c6_counterexample :
    (processMessage ⟨10, 1, true, false, 3, MeowMode.editOnly⟩
        ⟨400, "u2", "hi there", false, true⟩
        (fun _ => ApiResult.skip) (fun _ => ApiResult.ok)).editCalls = 1 ∧
    (processMessage ⟨10, 1, true, false, 3, MeowMode.editOnly⟩
        ⟨400, "u2", "hi there", false, true⟩
        (fun _ => ApiResult.skip) (fun _ => ApiResult.ok)).delta = Stats.zero := by
  decide

/-- C6 amended: with `max_retries ≥ 1`, in the deleting modes every message
increments exactly one of the terminal counters deleted / ghosts / skipped /
failed (plus at most one edited increment for a successful marking step);
in `edit_only` mode a message increments at most one counter — edited or
ghosts — and the edit outcomes Skipped and PermanentFailure (including
exhausted retries) increment none. -/
theorem c6_each_message_at_most_one_terminal_counter (st : Settings) (m : Msg)
    (editRes deleteRes : Nat → ApiResult) (hr : st.maxRetries ≠ 0) :
    (st.meowMode ≠ MeowMode.editOnly →
      (processMessage st m editRes deleteRes).delta.deleted +
        (processMessage st m editRes deleteRes).delta.ghosts +
        (processMessage st m editRes deleteRes).delta.skipped +
        (processMessage st m editRes deleteRes).delta.failed = 1 ∧
      (processMessage st m editRes deleteRes).delta.edited ≤ 1) ∧
    (st.meowMode = MeowMode.editOnly →
      (processMessage st m editRes deleteRes).delta.deleted = 0 ∧
      (processMessage st m editRes deleteRes).delta.skipped = 0 ∧
      (processMessage st m editRes deleteRes).delta.failed = 0 ∧
      (processMessage st m editRes deleteRes).delta.edited +
        (processMessage st m editRes deleteRes).delta.ghosts ≤ 1) := by
  have hnd := retryLoop_ne_noAttempt deleteRes st.maxRetries 1 hr
  have hne := retryLoop_ne_noAttempt editRes st.maxRetries 1 hr
  cases hmode : st.meowMode <;>
    by_cases hc : m.content = MEOW_TEXT <;>
      cases hE : (retryLoop editRes 1 st.maxRetries).1 <;>
        cases hD : (retryLoop deleteRes 1 st.maxRetries).1 <;>
          simp_all [processMessage, deleteDispatch, Stats.add, Stats.zero]

/-- C6 amended witness: the amended statement at a concrete message in
`edit_and_delete` mode whose edit and delete both succeed. -/
theorem c6_amended_witness :
    (processMessage ⟨10, 1, true, false, 3, MeowMode.editAndDelete⟩
        ⟨402, "u2", "note", false, true⟩
        (fun _ => ApiResult.ok) (fun _ => ApiResult.ok)).delta.deleted +
      (processMessage ⟨10, 1, true, false, 3, MeowMode.editAndDelete⟩
        ⟨402, "u2", "note", false, true⟩
        (fun _ => ApiResult.ok) (fun _ => ApiResult.ok)).delta.ghosts +
      (processMessage ⟨10, 1, true, false, 3, MeowMode.editAndDelete⟩
        ⟨402, "u2", "note", false, true⟩
        (fun _ => ApiResult.ok) (fun _ => ApiResult.ok)).delta.skipped +
      (processMessage ⟨10, 1, true, false, 3, MeowMode.editAndDelete⟩
        ⟨402, "u2", "note", false, true⟩
        (fun _ => ApiResult.ok) (fun _ => ApiResult.ok)).delta.failed = 1 ∧
    (processMessage ⟨10, 1, true, false, 3, MeowMode.editAndDelete⟩
        ⟨402, "u2", "note", false, true⟩
        (fun _ => ApiResult.ok) (fun _ => ApiResult.ok)).delta.edited ≤ 1 :=
  (c6_each_message_at_most_one_terminal_counter _ _ _ _ (by decide)).1 (by decide)

/-- C9: in `edit_only` mode no iteration of the pagination loop ever issues
a delete call, whatever the page contents, cursor state, dry-run flag, or
API responses. -/
theorem c9_edit_only_never_deletes (st : Settings) (authorId : String) (dryRun : Bool)
    (ps : PageState) (groups : List (List Msg)) (editRes deleteRes : Nat → Nat → ApiResult)
    (h : st.meowMode = MeowMode.editOnly) :
    (processPage st authorId dryRun ps groups editRes deleteRes).deleteCallsOf = 0 := by
  unfold processPage
  dsimp only
  repeat' split <;> try rfl
  all_goals
    simp [PageOutcome.deleteCallsOf, processBatch_editOnly_deleteCalls st _ _ h]

/-- C9 witness: a concrete page of one eligible message processed in
`edit_only` mode issues zero delete calls. -/
theorem c9_witness :
    (processPage ⟨10, 1, true, false, 3, MeowMode.editOnly⟩ "u1" false ⟨none, 0, 0⟩
        [[⟨300, "u1", "hello", false, true⟩]]
        (fun _ _ => ApiResult.ok) (fun _ _ => ApiResult.ok)).deleteCallsOf = 0 :=
  c9_edit_only_never_deletes _ _ _ _ _ _ _ rfl

/-- C4: when the cursor advances after a batch, the new `max_id`
(`oldest_processed_id - 1`, src line 790) is strictly less than every
message id processed in that batch and strictly less than the cursor under
which the batch was fetched; no id at or below the new cursor equals a
processed id, so no message is reconsidered in a later page; consequently
over any well-formed run the non-null cursor values form a strictly
decreasing chain, and the number of advances is bounded by the starting
cursor value, so the walk terminates. -/
theorem c4_cursor_strictly_decreases (batch : List Msg) (c : Int) (hne : batch ≠ [])
    (hlt : ∀ m ∈ batch, m.id < c) :
    (∃ o, oldestIdOf batch = some o ∧
      (∀ m ∈ batch, o - 1 < m.id) ∧ o - 1 < c ∧
      (∀ k : Int, k ≤ o - 1 → ∀ m ∈ batch, k ≠ m.id)) ∧
    (∀ (c0 : Int) (bs : List (List Msg)), ValidRun c0 bs →
      List.Chain (fun x y => y < x) c0 (cursorRun c0 bs)) ∧
    (∀ (c0 : Int) (bs : List (List Msg)), ValidRun c0 bs →
      bs.length ≤ (c0 + 1).toNat) := by
  refine ⟨?_, validRun_chain, validRun_length⟩
  obtain ⟨o, ho⟩ := oldestIdOf_isSome batch hne
  obtain ⟨h1, -, h3⟩ := foldl_trackOldest_spec batch none o ho
  rcases h1 with h1 | ⟨m, hm, hmo⟩
  · exact absurd h1 (by simp)
  · refine ⟨o, ho, ?_, ?_, ?_⟩
    · intro x hx
      have := h3 x hx
      omega
    · have := hlt m hm
      omega
    · intro k hk x hx
      have := h3 x hx
      omega

/-- C4 witness: the cursor-advance bound and the strictly decreasing chain
at a concrete two-message batch fetched under cursor 1000. -/
theorem c4_witness :
    (∃ o, oldestIdOf [⟨300, "u1", "a", false, true⟩, ⟨100, "u1", "b", false, true⟩]
          = some o ∧
      (∀ m ∈ [(⟨300, "u1", "a", false, true⟩ : Msg), ⟨100, "u1", "b", false, true⟩],
        o - 1 < m.id) ∧
      o - 1 < 1000 ∧
      (∀ k : Int, k ≤ o - 1 →
        ∀ m ∈ [(⟨300, "u1", "a", false, true⟩ : Msg), ⟨100, "u1", "b", false, true⟩],
          k ≠ m.id)) ∧
    List.Chain (fun x y => y < x) 1000
      (cursorRun 1000 [[⟨300, "u1", "a", false, true⟩, ⟨100, "u1", "b", false, true⟩]]) := by
  refine ⟨(c4_cursor_strictly_decreases _ 1000 (by decide) (by decide)).1, ?_⟩
  exact (c4_cursor_strictly_decreases
      [⟨300, "u1", "a", false, true⟩, ⟨100, "u1", "b", false, true⟩] 1000
      (by decide) (by decide)).2.1 1000
    [[⟨300, "u1", "a", false, true⟩, ⟨100, "u1", "b", false, true⟩]]
    (ValidRun.cons _ _ _ (by decide) (by decide) (fun _ _ => ValidRun.nil _))

/-- C7: a page with zero message groups increments the consecutive-empty-page
counter; when the counter reaches 3 the target is reported exhausted with no
action calls and no statistics change; below the threshold the loop sleeps
`search_delay` and retries the identical cursor (same `max_id`, same
`offset`); and any nonempty page resets the counter to 0. -/
theorem c7_empty_page_handling (st : Settings) (authorId : String) (dryRun : Bool)
    (ps : PageState) (editRes deleteRes : Nat → Nat → ApiResult) :
    (ps.emptyPages = 2 →
      processPage st authorId dryRun ps [] editRes deleteRes = PageOutcome.exhausted 3) ∧
    (ps.emptyPages + 1 < MAX_EMPTY_PAGES →
      processPage st authorId dryRun ps [] editRes deleteRes =
        PageOutcome.continued { ps with emptyPages := ps.emptyPages + 1 }
          st.searchDelay Stats.zero 0 0) ∧
    (∀ groups, groups ≠ [] →
      ∀ s, (processPage st authorId dryRun ps groups editRes deleteRes).stateOf = some s →
        s.emptyPages = 0) := by
  refine ⟨fun h2 => ?_, fun hlt => ?_, fun groups hg s hs => ?_⟩
  · simp [processPage, h2, MAX_EMPTY_PAGES]
  · have hn : ¬ (MAX_EMPTY_PAGES ≤ ps.emptyPages + 1) := by omega
    simp [processPage, hn]
  · unfold processPage at hs
    rw [if_neg hg] at hs
    dsimp only at hs
    repeat' split at hs
    all_goals simp only [PageOutcome.stateOf, Option.some_inj] at hs
    all_goals rw [← hs]

/-- C7 witness: from a state with two consecutive empty pages already seen,
a third empty page exhausts the target, and a concrete nonempty page resets
the counter to 0. -/
theorem c7_witness :
    processPage ⟨10, 1, true, false, 3, MeowMode.off⟩ "u1" false ⟨none, 5, 2⟩ []
        (fun _ _ => ApiResult.ok) (fun _ _ => ApiResult.ok) = PageOutcome.exhausted 3 ∧
    ∀ s, (processPage ⟨10, 1, true, false, 3, MeowMode.off⟩ "u1" false ⟨none, 5, 2⟩
        [[⟨300, "u1", "hello", false, true⟩]]
        (fun _ _ => ApiResult.ok) (fun _ _ => ApiResult.ok)).stateOf = some s →
      s.emptyPages = 0 :=
  ⟨(c7_empty_page_handling _ _ _ _ _ _).1 rfl,
   (c7_empty_page_handling _ _ _ _ _ _).2.2 _ (by decide)⟩

/-- C8: with `skip_meowed` enabled, no message whose content equals the
marker text is ever in the eligible batch handed to the action loop, while
every such hit by the current author is still among `all_hit_messages`; and
when a batch consists only of filtered messages, the cursor is advanced to
`min(all_hit ids) - 1` with offset reset to 0, which lies strictly below the
id of every such message — the filtered messages drive the advance. -/
theorem c8_skip_meowed_filtered_but_advances (st : Settings) (authorId : String)
    (groups : List (List Msg)) (hsm : st.skipMeowed = true) :
    (∀ m ∈ pageEligible st authorId groups, m.content ≠ MEOW_TEXT) ∧
    (∀ m ∈ groups.flatten, m.hit = true → m.authorId = authorId →
      m ∈ pageHits authorId groups) ∧
    (∀ (dryRun : Bool) (ps : PageState) (editRes deleteRes : Nat → Nat → ApiResult),
      pageEligible st authorId groups = [] → pageHits authorId groups ≠ [] →
      ∃ o, oldestIdOf (pageHits authorId groups) = some o ∧
        (processPage st authorId dryRun ps groups editRes deleteRes).stateOf =
          some ⟨some (o - 1), 0, 0⟩ ∧
        ∀ m ∈ pageHits authorId groups, o - 1 < m.id) := by
  refine ⟨?_, ?_, ?_⟩
  · intro m hm hc
    have hcond := (List.mem_filter.mp hm).2
    simp [hsm, hc] at hcond
  · intro m hm hhit hauth
    exact List.mem_filter.mpr ⟨hm, by simp [hhit, hauth]⟩
  · intro dryRun ps editRes deleteRes hm hh
    have hg : groups ≠ [] := fun h => hh (by simp [pageHits, h])
    obtain ⟨o, ho⟩ := oldestIdOf_isSome _ hh
    obtain ⟨-, -, h3⟩ := foldl_trackOldest_spec _ none o ho
    refine ⟨o, ho, ?_, ?_⟩
    · unfold processPage
      rw [if_neg hg]
      dsimp only
      rw [if_neg (fun hand => hh hand.2), if_pos hm, ho]
      rfl
    · intro m hm'
      have := h3 m hm'
      omega

/-- C8 witness: a page whose only hit is a marker-text message by the
current author; it is excluded from the eligible list yet the cursor
advances to its id minus one. -/
theorem c8_witness :
    (∀ m ∈ pageEligible ⟨10, 1, true, true, 3, MeowMode.off⟩ "u1"
        [[⟨500, "u1", "Meow Meow Meow Meow", false, true⟩]], m.content ≠ MEOW_TEXT) ∧
    (∃ o, oldestIdOf (pageHits "u1" [[⟨500, "u1", "Meow Meow Meow Meow", false, true⟩]])
          = some o ∧
      (processPage ⟨10, 1, true, true, 3, MeowMode.off⟩ "u1" false ⟨none, 0, 0⟩
          [[⟨500, "u1", "Meow Meow Meow Meow", false, true⟩]]
          (fun _ _ => ApiResult.ok) (fun _ _ => ApiResult.ok)).stateOf =
        some ⟨some (o - 1), 0, 0⟩ ∧
      ∀ m ∈ pageHits "u1" [[⟨500, "u1", "Meow Meow Meow Meow", false, true⟩]],
        o - 1 < m.id) := by
  have h := c8_skip_meowed_filtered_but_advances ⟨10, 1, true, true, 3, MeowMode.off⟩ "u1"
    [[⟨500, "u1", "Meow Meow Meow Meow", false, true⟩]] rfl
  exact ⟨h.1, h.2.2 false ⟨none, 0, 0⟩ (fun _ _ => ApiResult.ok) (fun _ _ => ApiResult.ok)
    (by decide) (by decide)⟩

/-- C10: with dry-run enabled an iteration of the pagination loop issues no
edit call and no delete call and changes no statistics counter, and when the
page has a nonempty eligible batch the cursor advances to the minimum
eligible message id minus one with the offset reset to 0. -/
theorem c10_dry_run_previews_only (st : Settings) (authorId : String) (ps : PageState)
    (groups : List (List Msg)) (editRes deleteRes : Nat → Nat → ApiResult) :
    (processPage st authorId true ps groups editRes deleteRes).editCallsOf = 0 ∧
    (processPage st authorId true ps groups editRes deleteRes).deleteCallsOf = 0 ∧
    (processPage st authorId true ps groups editRes deleteRes).deltaOf = Stats.zero ∧
    (pageEligible st authorId groups ≠ [] →
      ∃ o, oldestIdOf (pageEligible st authorId groups) = some o ∧
        (processPage st authorId true ps groups editRes deleteRes).stateOf =
          some ⟨some (o - 1), 0, 0⟩) := by
  refine ⟨?_, ?_, ?_, ?_⟩
  · unfold processPage
    dsimp only
    repeat' split <;> try rfl
    all_goals simp_all
  · unfold processPage
    dsimp only
    repeat' split <;> try rfl
    all_goals simp_all
  · unfold processPage
    dsimp only
    repeat' split <;> try rfl
    all_goals simp_all
  · intro hne
    have hg : groups ≠ [] := fun h => hne (by simp [pageEligible, pageHits, h])
    obtain ⟨o, ho⟩ := oldestIdOf_isSome _ hne
    refine ⟨o, ho, ?_⟩
    unfold processPage
    rw [if_neg hg]
    dsimp only
    rw [if_neg (fun hand => hne hand.1), if_neg hne, if_pos rfl, ho]
    rfl

/-- C10 witness: a concrete dry-run page with one eligible message id 300
issues no action calls, leaves the counters unchanged, and moves the cursor
to 299 with offset 0. -/
theorem c10_witness :
    (processPage ⟨10, 1, true, false, 3, MeowMode.off⟩ "u1" true ⟨none, 7, 0⟩
        [[⟨300, "u1", "hello", false, true⟩]]
        (fun _ _ => ApiResult.ok) (fun _ _ => ApiResult.ok)).editCallsOf = 0 ∧
    (processPage ⟨10, 1, true, false, 3, MeowMode.off⟩ "u1" true ⟨none, 7, 0⟩
        [[⟨300, "u1", "hello", false, true⟩]]
        (fun _ _ => ApiResult.ok) (fun _ _ => ApiResult.ok)).deleteCallsOf = 0 ∧
    (processPage ⟨10, 1, true, false, 3, MeowMode.off⟩ "u1" true ⟨none, 7, 0⟩
        [[⟨300, "u1", "hello", false, true⟩]]
        (fun _ _ => ApiResult.ok) (fun _ _ => ApiResult.ok)).deltaOf = Stats.zero ∧
    (∃ o, oldestIdOf (pageEligible ⟨10, 1, true, false, 3, MeowMode.off⟩ "u1"
          [[⟨300, "u1", "hello", false, true⟩]]) = some o ∧
      (processPage ⟨10, 1, true, false, 3, MeowMode.off⟩ "u1" true ⟨none, 7, 0⟩
          [[⟨300, "u1", "hello", false, true⟩]]
          (fun _ _ => ApiResult.ok) (fun _ _ => ApiResult.ok)).stateOf =
        some ⟨some 299, 0, 0⟩) := by
  have h := c10_dry_run_previews_only ⟨10, 1, true, false, 3, MeowMode.off⟩ "u1" ⟨none, 7, 0⟩
    [[⟨300, "u1", "hello", false, true⟩]]
    (fun _ _ => ApiResult.ok) (fun _ _ => ApiResult.ok)
  obtain ⟨o, ho, hs⟩ := h.2.2.2 (by decide)
  have ho300 : o = 300 := by
    have : oldestIdOf (pageEligible ⟨10, 1, true, false, 3, MeowMode.off⟩ "u1"
        [[⟨300, "u1", "hello", false, true⟩]]) = some 300 := by decide
    rw [this] at ho
    exact (Option.some_inj.mp ho).symm
  subst ho300
  exact ⟨h.1, h.2.1, h.2.2.1, 300, ho, hs⟩

end Paracord
